import Mathlib

/-!
Verification of the LSMR least-squares solver (`fmin/lstsq/lsmr.py`):
a shallow embedding, over exact real arithmetic, of the stable Givens
rotation primitive `_sym_ortho` and of the `lsmr` iteration driver,
together with proofs of correctness and invariant properties.
-/

namespace Torchmin

/-! ## Definitions -/

/-- Embedding of `torch.sign` on reals: `sign 0 = 0`. -/
noncomputable def tsign (x : ℝ) : ℝ :=
  if 0 < x then 1 else if x < 0 then -1 else 0

/-- Embedding of `_sym_ortho` (lines 30-62 of `lsmr.py`): the vectorized
masked-select computation, read scalar-wise.  The default branch
`tau = b / a; c = sign(a) / sqrt(1 + tau²); s = c * tau; r = a / c` is computed
first and then selectively overwritten by the three masked cases; in exact
arithmetic this is the priority if-chain below with the default formulas
inlined in the final branch. -/
noncomputable def _sym_ortho (a b : ℝ) : ℝ × ℝ × ℝ :=
  if b = 0 then (tsign a, 0, |a|)
  else if a = 0 then (0, tsign b, |b|)
  else if |b| > |a| then
    (tsign b / Real.sqrt (1 + 1 / (b / a) ^ 2) / (b / a),
     tsign b / Real.sqrt (1 + 1 / (b / a) ^ 2),
     b / (tsign b / Real.sqrt (1 + 1 / (b / a) ^ 2)))
  else
    (tsign a / Real.sqrt (1 + (b / a) ^ 2),
     tsign a / Real.sqrt (1 + (b / a) ^ 2) * (b / a),
     a / (tsign a / Real.sqrt (1 + (b / a) ^ 2)))

/-- A linear operator accessed only through forward and transpose
matrix-vector products (the `aslinearoperator` contract consumed by `lsmr`). -/
structure LsmrOp (m n : ℕ) where
  matvec : (Fin n → ℝ) → Fin m → ℝ
  rmatvec : (Fin m → ℝ) → Fin n → ℝ

/-- Euclidean norm of a vector (`torch.Tensor.norm`). -/
noncomputable def norm2 {k : ℕ} (v : Fin k → ℝ) : ℝ :=
  Real.sqrt (∑ i, v i ^ 2)

/-- Largest finite float64 value, `torch.finfo(b.dtype).max` for the default
dtype: (2 − 2⁻⁵²)·2¹⁰²³. -/
def floatMax : ℝ := 2 ^ 1024 - 2 ^ 971

/-- The scalar and vector state carried by `lsmr`'s main loop. -/
structure LsmrCore (m n : ℕ) where
  x : Fin n → ℝ
  u : Fin m → ℝ
  v : Fin n → ℝ
  h : Fin n → ℝ
  hbar : Fin n → ℝ
  alpha : ℝ
  beta : ℝ
  itn : ℕ
  zetabar : ℝ
  alphabar : ℝ
  rho : ℝ
  rhobar : ℝ
  cbar : ℝ
  sbar : ℝ
  betadd : ℝ
  betad : ℝ
  rhodold : ℝ
  tautildeold : ℝ
  thetatilde : ℝ
  zeta : ℝ
  d : ℝ
  normA2 : ℝ
  maxrbar : ℝ
  minrbar : ℝ
  normA : ℝ
  condA : ℝ
  normx : ℝ
  normr : ℝ
  normar : ℝ

/-- Initialization of `lsmr` (lines 183-245): residual, first
bidiagonalization pair (α, β), and the seeds of the rotation chain and of the
norm and condition accumulators. -/
noncomputable def lsmrInit {m n : ℕ} (A : LsmrOp m n) (b : Fin m → ℝ)
    (x0 : Option (Fin n → ℝ)) : LsmrCore m n :=
  let normb := norm2 b
  let x := match x0 with
    | none => fun _ => (0 : ℝ)
    | some xv => xv
  let u1 := match x0 with
    | none => b
    | some xv => fun i => b i - A.matvec xv i
  let beta := match x0 with
    | none => normb
    | some _ => norm2 u1
  let u := if 0 < beta then fun i => (1 / beta) * u1 i else u1
  let v0 := if 0 < beta then A.rmatvec u else fun _ => 0
  let alpha := if 0 < beta then norm2 v0 else 0
  let v := if 0 < alpha then fun i => (1 / alpha) * v0 i else v0
  { x := x
    u := u
    v := v
    h := v
    hbar := fun _ => 0
    alpha := alpha
    beta := beta
    itn := 0
    zetabar := alpha * beta
    alphabar := alpha
    rho := 1
    rhobar := 1
    cbar := 1
    sbar := 0
    betadd := beta
    betad := 0
    rhodold := 1
    tautildeold := 0
    thetatilde := 0
    zeta := 0
    d := 0
    normA2 := alpha * alpha
    maxrbar := 0
    minrbar := 0.99 * floatMax
    normA := Real.sqrt (alpha * alpha)
    condA := 1
    normx := 0
    normr := beta
    normar := alpha * beta }

/-- The stopping-rule quantity `test2 = normar / (normA * normr)`, with the
source's `masked_fill((normA * normr) == 0, float('inf'))` modeled as `⊤` in
`WithTop ℝ` (line 363). -/
noncomputable def test2v {m n : ℕ} (st : LsmrCore m n) : WithTop ℝ :=
  if st.normA * st.normr = 0 then ⊤
  else ((st.normar / (st.normA * st.normr) : ℝ) : WithTop ℝ)

/-- The stopping-rule disjunction evaluated at the end of each loop pass
(lines 362-380); the source lists `itn >= maxiter` in both groups, which is
kept here as a single disjunct. -/
noncomputable def stopCond {m n : ℕ} (atol btol ctol normb : ℝ) (maxiter : ℕ)
    (st : LsmrCore m n) : Prop :=
  let test1 := st.normr / normb
  let test2 := test2v st
  let test3 := 1 / st.condA
  let t1 := test1 / (1 + st.normA * st.normx / normb)
  let rtol := btol + atol * st.normA * st.normx / normb
  (maxiter ≤ st.itn) ∨ (1 + test3 ≤ 1) ∨ ((1 : WithTop ℝ) + test2 ≤ 1) ∨
    (1 + t1 ≤ 1) ∨ (test3 ≤ ctol) ∨ (test2 ≤ ((atol : ℝ) : WithTop ℝ)) ∨
    (test1 ≤ rtol)

/-- Bidiagonalization (lines 271-273): the unnormalized new `u`,
`u *= -alpha; u += A.matvec(v)`. -/
noncomputable def stepU1 {m n : ℕ} (A : LsmrOp m n) (st : LsmrCore m n) :
    Fin m → ℝ :=
  fun i => A.matvec st.v i - st.alpha * st.u i

/-- The new `beta = norm(u)` of the bidiagonalization step. -/
noncomputable def stepBeta {m n : ℕ} (A : LsmrOp m n) (st : LsmrCore m n) : ℝ :=
  norm2 (stepU1 A st)

/-- The new `u`, normalized when `beta > 0` (lines 275-276). -/
noncomputable def stepU {m n : ℕ} (A : LsmrOp m n) (st : LsmrCore m n) :
    Fin m → ℝ :=
  if 0 < stepBeta A st then fun i => (1 / stepBeta A st) * stepU1 A st i
  else stepU1 A st

/-- The unnormalized new `v`, `v *= -beta; v += A.rmatvec(u)`, computed only
when `beta > 0` (lines 277-278). -/
noncomputable def stepV1 {m n : ℕ} (A : LsmrOp m n) (st : LsmrCore m n) :
    Fin n → ℝ :=
  if 0 < stepBeta A st then
    fun i => A.rmatvec (stepU A st) i - stepBeta A st * st.v i
  else st.v

/-- The new `alpha = norm(v)` (line 279), unchanged when `beta = 0`. -/
noncomputable def stepAlpha {m n : ℕ} (A : LsmrOp m n) (st : LsmrCore m n) : ℝ :=
  if 0 < stepBeta A st then norm2 (stepV1 A st) else st.alpha

/-- The new `v`, normalized when `alpha > 0` (lines 280-281). -/
noncomputable def stepV {m n : ℕ} (A : LsmrOp m n) (st : LsmrCore m n) :
    Fin n → ℝ :=
  if 0 < stepBeta A st ∧ 0 < stepAlpha A st then
    fun i => (1 / stepAlpha A st) * stepV1 A st i
  else stepV1 A st

/-- Damping rotation (line 287): `chat`. -/
noncomputable def stepChat {m n : ℕ} (damp : ℝ) (st : LsmrCore m n) : ℝ :=
  (_sym_ortho st.alphabar damp).1

/-- Damping rotation (line 287): `shat`. -/
noncomputable def stepShat {m n : ℕ} (damp : ℝ) (st : LsmrCore m n) : ℝ :=
  (_sym_ortho st.alphabar damp).2.1

/-- Damping rotation (line 287): `alphahat`. -/
noncomputable def stepAlphahat {m n : ℕ} (damp : ℝ) (st : LsmrCore m n) : ℝ :=
  (_sym_ortho st.alphabar damp).2.2

/-- Primary QR rotation (line 292): `c`. -/
noncomputable def stepC {m n : ℕ} (A : LsmrOp m n) (damp : ℝ)
    (st : LsmrCore m n) : ℝ :=
  (_sym_ortho (stepAlphahat damp st) (stepBeta A st)).1

/-- Primary QR rotation (line 292): `s`. -/
noncomputable def stepS {m n : ℕ} (A : LsmrOp m n) (damp : ℝ)
    (st : LsmrCore m n) : ℝ :=
  (_sym_ortho (stepAlphahat damp st) (stepBeta A st)).2.1

/-- Primary QR rotation (line 292): `rho`. -/
noncomputable def stepRho {m n : ℕ} (A : LsmrOp m n) (damp : ℝ)
    (st : LsmrCore m n) : ℝ :=
  (_sym_ortho (stepAlphahat damp st) (stepBeta A st)).2.2

/-- `thetanew = s * alpha` (line 293). -/
noncomputable def stepThetanew {m n : ℕ} (A : LsmrOp m n) (damp : ℝ)
    (st : LsmrCore m n) : ℝ :=
  stepS A damp st * stepAlpha A st

/-- `alphabar = c * alpha` (line 294). -/
noncomputable def stepAlphabar {m n : ℕ} (A : LsmrOp m n) (damp : ℝ)
    (st : LsmrCore m n) : ℝ :=
  stepC A damp st * stepAlpha A st

/-- `thetabar = sbar * rho` (line 300). -/
noncomputable def stepThetabar {m n : ℕ} (A : LsmrOp m n) (damp : ℝ)
    (st : LsmrCore m n) : ℝ :=
  st.sbar * stepRho A damp st

/-- `rhotemp = cbar * rho` (line 301). -/
noncomputable def stepRhotemp {m n : ℕ} (A : LsmrOp m n) (damp : ℝ)
    (st : LsmrCore m n) : ℝ :=
  st.cbar * stepRho A damp st

/-- Bar QR rotation (line 302): `cbar`. -/
noncomputable def stepCbar {m n : ℕ} (A : LsmrOp m n) (damp : ℝ)
    (st : LsmrCore m n) : ℝ :=
  (_sym_ortho (stepRhotemp A damp st) (stepThetanew A damp st)).1

/-- Bar QR rotation (line 302): `sbar`. -/
noncomputable def stepSbar {m n : ℕ} (A : LsmrOp m n) (damp : ℝ)
    (st : LsmrCore m n) : ℝ :=
  (_sym_ortho (stepRhotemp A damp st) (stepThetanew A damp st)).2.1

/-- Bar QR rotation (line 302): `rhobar`. -/
noncomputable def stepRhobar {m n : ℕ} (A : LsmrOp m n) (damp : ℝ)
    (st : LsmrCore m n) : ℝ :=
  (_sym_ortho (stepRhotemp A damp st) (stepThetanew A damp st)).2.2

/-- `zeta = cbar * zetabar` (line 303). -/
noncomputable def stepZeta {m n : ℕ} (A : LsmrOp m n) (damp : ℝ)
    (st : LsmrCore m n) : ℝ :=
  stepCbar A damp st * st.zetabar

/-- `zetabar = -sbar * zetabar` (line 304). -/
noncomputable def stepZetabar {m n : ℕ} (A : LsmrOp m n) (damp : ℝ)
    (st : LsmrCore m n) : ℝ :=
  -stepSbar A damp st * st.zetabar

/-- Solution update (lines 308-309): the new `hbar`; `rhoold = st.rho` and
`rhobarold = st.rhobar`. -/
noncomputable def stepHbar {m n : ℕ} (A : LsmrOp m n) (damp : ℝ)
    (st : LsmrCore m n) : Fin n → ℝ :=
  fun i => st.h i -
    stepThetabar A damp st * stepRho A damp st / (st.rho * st.rhobar) * st.hbar i

/-- Solution update (line 310): the new `x`. -/
noncomputable def stepX {m n : ℕ} (A : LsmrOp m n) (damp : ℝ)
    (st : LsmrCore m n) : Fin n → ℝ :=
  fun i => st.x i +
    stepZeta A damp st / (stepRho A damp st * stepRhobar A damp st) *
      stepHbar A damp st i

/-- Solution update (lines 311-312): the new `h`. -/
noncomputable def stepH {m n : ℕ} (A : LsmrOp m n) (damp : ℝ)
    (st : LsmrCore m n) : Fin n → ℝ :=
  fun i => stepV A st i - stepThetanew A damp st / stepRho A damp st * st.h i

/-- Residual estimation (line 317): `betaacute = chat * betadd`. -/
noncomputable def stepBetaacute {m n : ℕ} (damp : ℝ) (st : LsmrCore m n) : ℝ :=
  stepChat damp st * st.betadd

/-- Residual estimation (line 318): `betacheck = -shat * betadd`. -/
noncomputable def stepBetacheck {m n : ℕ} (damp : ℝ) (st : LsmrCore m n) : ℝ :=
  -stepShat damp st * st.betadd

/-- Residual estimation (line 321): `betahat = c * betaacute`. -/
noncomputable def stepBetahat {m n : ℕ} (A : LsmrOp m n) (damp : ℝ)
    (st : LsmrCore m n) : ℝ :=
  stepC A damp st * stepBetaacute damp st

/-- Residual estimation (line 322): the new `betadd = -s * betaacute`. -/
noncomputable def stepBetadd {m n : ℕ} (A : LsmrOp m n) (damp : ℝ)
    (st : LsmrCore m n) : ℝ :=
  -stepS A damp st * stepBetaacute damp st

/-- Residual estimation (line 328): `ctildeold`. -/
noncomputable def stepCtildeold {m n : ℕ} (A : LsmrOp m n) (damp : ℝ)
    (st : LsmrCore m n) : ℝ :=
  (_sym_ortho st.rhodold (stepThetabar A damp st)).1

/-- Residual estimation (line 328): `stildeold`. -/
noncomputable def stepStildeold {m n : ℕ} (A : LsmrOp m n) (damp : ℝ)
    (st : LsmrCore m n) : ℝ :=
  (_sym_ortho st.rhodold (stepThetabar A damp st)).2.1

/-- Residual estimation (line 328): `rhotildeold`. -/
noncomputable def stepRhotildeold {m n : ℕ} (A : LsmrOp m n) (damp : ℝ)
    (st : LsmrCore m n) : ℝ :=
  (_sym_ortho st.rhodold (stepThetabar A damp st)).2.2

/-- Residual estimation (line 329): the new `thetatilde`. -/
noncomputable def stepThetatilde {m n : ℕ} (A : LsmrOp m n) (damp : ℝ)
    (st : LsmrCore m n) : ℝ :=
  stepStildeold A damp st * stepRhobar A damp st

/-- Residual estimation (line 330): the new `rhodold`. -/
noncomputable def stepRhodold {m n : ℕ} (A : LsmrOp m n) (damp : ℝ)
    (st : LsmrCore m n) : ℝ :=
  stepCtildeold A damp st * stepRhobar A damp st

/-- Residual estimation (line 331): the new `betad`. -/
noncomputable def stepBetad {m n : ℕ} (A : LsmrOp m n) (damp : ℝ)
    (st : LsmrCore m n) : ℝ :=
  -stepStildeold A damp st * st.betad + stepCtildeold A damp st * stepBetahat A damp st

/-- Residual estimation (line 336): the new `tautildeold`; `zetaold = st.zeta`
and `thetatildeold = st.thetatilde`. -/
noncomputable def stepTautildeold {m n : ℕ} (A : LsmrOp m n) (damp : ℝ)
    (st : LsmrCore m n) : ℝ :=
  (st.zeta - st.thetatilde * st.tautildeold) / stepRhotildeold A damp st

/-- Residual estimation (line 337): `taud`. -/
noncomputable def stepTaud {m n : ℕ} (A : LsmrOp m n) (damp : ℝ)
    (st : LsmrCore m n) : ℝ :=
  (stepZeta A damp st - stepThetatilde A damp st * stepTautildeold A damp st) /
    stepRhodold A damp st

/-- Residual estimation (line 338): the new `d`. -/
noncomputable def stepD {m n : ℕ} (damp : ℝ) (st : LsmrCore m n) : ℝ :=
  st.d + stepBetacheck damp st ^ 2

/-- Residual estimation (line 339): the new `normr`. -/
noncomputable def stepNormr {m n : ℕ} (A : LsmrOp m n) (damp : ℝ)
    (st : LsmrCore m n) : ℝ :=
  Real.sqrt (stepD damp st +
    (stepBetad A damp st - stepTaud A damp st) ^ 2 + stepBetadd A damp st ^ 2)

/-- Norm estimation (line 342): `normA2` after accumulating `beta²`. -/
noncomputable def stepNormA2mid {m n : ℕ} (A : LsmrOp m n) (st : LsmrCore m n) : ℝ :=
  st.normA2 + stepBeta A st ^ 2

/-- Norm estimation (line 343): the new `normA`. -/
noncomputable def stepNormA {m n : ℕ} (A : LsmrOp m n) (st : LsmrCore m n) : ℝ :=
  Real.sqrt (stepNormA2mid A st)

/-- Condition estimation (line 347): the new `maxrbar`; `rhobarold = st.rhobar`. -/
noncomputable def stepMaxrbar {m n : ℕ} (st : LsmrCore m n) : ℝ :=
  max st.maxrbar st.rhobar

/-- Condition estimation (line 348): the new `minrbar`, updated only past the
first iteration. -/
noncomputable def stepMinrbar {m n : ℕ} (st : LsmrCore m n) : ℝ :=
  if 1 < st.itn + 1 then min st.minrbar st.rhobar else st.minrbar

/-- Condition estimation (line 351): the new `condA`. -/
noncomputable def stepCondA {m n : ℕ} (A : LsmrOp m n) (damp : ℝ)
    (st : LsmrCore m n) : ℝ :=
  max (stepMaxrbar st) (stepRhotemp A damp st) /
    min (stepMinrbar st) (stepRhotemp A damp st)

/-- One pass of the main iteration loop (lines 263-380), assembled from the
named per-pass quantities above. -/
noncomputable def lsmrStep {m n : ℕ} (A : LsmrOp m n) (damp : ℝ)
    (st : LsmrCore m n) : LsmrCore m n :=
  { x := stepX A damp st
    u := stepU A st
    v := stepV A st
    h := stepH A damp st
    hbar := stepHbar A damp st
    alpha := stepAlpha A st
    beta := stepBeta A st
    itn := st.itn + 1
    zetabar := stepZetabar A damp st
    alphabar := stepAlphabar A damp st
    rho := stepRho A damp st
    rhobar := stepRhobar A damp st
    cbar := stepCbar A damp st
    sbar := stepSbar A damp st
    betadd := stepBetadd A damp st
    betad := stepBetad A damp st
    rhodold := stepRhodold A damp st
    tautildeold := stepTautildeold A damp st
    thetatilde := stepThetatilde A damp st
    zeta := stepZeta A damp st
    d := stepD damp st
    normA2 := stepNormA2mid A st + stepAlpha A st ^ 2
    maxrbar := stepMaxrbar st
    minrbar := stepMinrbar st
    normA := stepNormA A st
    condA := stepCondA A damp st
    normx := norm2 (stepX A damp st)
    normr := stepNormr A damp st
    normar := |stepZetabar A damp st| }

open Classical in
/-- Decision whether the verbose path prints a progress line on this pass
(lines 385-388). -/
noncomputable def printCond {m n : ℕ} (atol btol ctol normb : ℝ) (maxiter : ℕ)
    (st : LsmrCore m n) : Prop :=
  let test1 := st.normr / normb
  let test2 := test2v st
  let test3 := 1 / st.condA
  let rtol := btol + atol * st.normA * st.normx / normb
  n ≤ 40 ∨ st.itn ≤ 10 ∨ maxiter - 10 ≤ st.itn ∨ st.itn % 10 = 0 ∨
    (test3 ≤ 1.1 * ctol) ∨ (test2 ≤ ((1.1 * atol : ℝ) : WithTop ℝ)) ∨
    (test1 ≤ 1.1 * rtol) ∨ stopCond atol btol ctol normb maxiter st

open Classical in
/-- The only mutable state of the verbose path: the print counter `pcount`,
reset against `pfreq = 20` before each printed heading (lines 390-394). -/
noncomputable def printUpdate {m n : ℕ} (atol btol ctol normb : ℝ) (maxiter : ℕ)
    (st : LsmrCore m n) (pcount : ℕ) : ℕ :=
  if printCond atol btol ctol normb maxiter st then
    (if 20 ≤ pcount then 0 else pcount) + 1
  else pcount

open Classical in
/-- The main `while True` loop (lines 263-402) as a fuel-indexed recursion;
`lsmr` supplies fuel `maxiter + 1`, which is provably sufficient because the
stopping rule contains `itn >= maxiter`. -/
noncomputable def lsmrLoop {m n : ℕ} (A : LsmrOp m n) (damp atol btol ctol normb : ℝ)
    (maxiter : ℕ) (verbose : Bool) : ℕ → LsmrCore m n × ℕ → LsmrCore m n × ℕ
  | 0, s => s
  | fuel + 1, s =>
    let st' := lsmrStep A damp s.1
    let pcount' := if verbose then printUpdate atol btol ctol normb maxiter st' s.2
      else s.2
    if stopCond atol btol ctol normb maxiter st' then (st', pcount')
    else lsmrLoop A damp atol btol ctol normb maxiter verbose fuel (st', pcount')

/-- The 7-tuple `(x, itn, normr, normar, normA, condA, normx)` returned by
`lsmr`. -/
structure LsmrResult (n : ℕ) where
  x : Fin n → ℝ
  itn : ℕ
  normr : ℝ
  normar : ℝ
  normA : ℝ
  condA : ℝ
  normx : ℝ

/-- Projection of the loop state onto the returned 7-tuple. -/
noncomputable def lsmrOut {m n : ℕ} (st : LsmrCore m n) : LsmrResult n :=
  { x := st.x
    itn := st.itn
    normr := st.normr
    normar := st.normar
    normA := st.normA
    condA := st.condA
    normx := st.normx }

open Classical in
/-- The `lsmr` driver (lines 66-418): default iteration cap `min m n`,
`ctol = 1/conlim` when `conlim > 0`, initialization, the immediate-termination
test `normar == 0`, and the main loop. -/
noncomputable def lsmr {m n : ℕ} (A : LsmrOp m n) (b : Fin m → ℝ)
    (damp atol btol conlim : ℝ) (maxiter : Option ℕ) (verbose : Bool)
    (x0 : Option (Fin n → ℝ)) : LsmrResult n :=
  if (lsmrInit A b x0).normar = 0 then lsmrOut (lsmrInit A b x0)
  else
    lsmrOut (lsmrLoop A damp atol btol (if 0 < conlim then 1 / conlim else 0)
      (norm2 b) (maxiter.getD (min m n)) verbose (maxiter.getD (min m n) + 1)
      (lsmrInit A b x0, 0)).1

/-- Euclidean norm of a vector given as a list of unconstrained length. -/
noncomputable def listNorm2 (b : List ℝ) : ℝ :=
  Real.sqrt ((b.map fun y => y ^ 2).sum)

/-- The `lsmr` entry (lines 147-250) over a `b` whose length is not forced to
match the operator: exactly as the source, it performs no shape validation.
With `x0` omitted it computes `normb` and `beta = normb` from `b` alone and
reaches the `beta > 0` test before any operator product; when `beta = 0` it
runs to the `normar == 0` return (lines 196-250) without ever consulting the
operator, returning the normal 7-tuple with `itn = 0`.  Only a branch in
which an operator product would receive the mismatched vector (the
`A.rmatvec(u)` of line 195, or the `A.matvec(x)` of line 190 when `x0` is
supplied) leaves `lsmr.py` and enters the operator abstraction
(`linear_operator.py`, not among the sources); those branches are modeled as
an abstract error outcome, and no theorem below depends on their value.  On
matched lengths the entry agrees with `lsmr`. -/
noncomputable def lsmrEntry {m n : ℕ} (A : LsmrOp m n) (b : List ℝ)
    (damp atol btol conlim : ℝ) (maxiter : Option ℕ) (verbose : Bool)
    (x0 : Option (List ℝ)) : Except String (LsmrResult n) :=
  match x0 with
  | none =>
    if 0 < listNorm2 b then
      if b.length = m then
        Except.ok (lsmr A (fun i => b.getD i.val 0)
          damp atol btol conlim maxiter verbose none)
      else Except.error "operator product applied to a mismatched vector"
    else
      Except.ok
        { x := fun _ => 0
          itn := 0
          normr := listNorm2 b
          normar := 0
          normA := Real.sqrt (0 * 0)
          condA := 1
          normx := 0 }
  | some xv =>
    if b.length = m ∧ xv.length = n then
      Except.ok (lsmr A (fun i => b.getD i.val 0)
        damp atol btol conlim maxiter verbose (some fun i => xv.getD i.val 0))
    else Except.error "operator product applied to a mismatched vector"

/-- The loop invariant behind the condition-number estimate: positive cosine
and radius in the bar rotation chain, positive running minimum, a positive
operator-norm accumulator, and a nondegenerate damped-rotation input. -/
def LsmrInv {m n : ℕ} (damp : ℝ) (st : LsmrCore m n) : Prop :=
  0 < st.cbar ∧ 0 < st.rhobar ∧ 0 < st.minrbar ∧ 0 < st.normA2 ∧
    (st.alphabar ≠ 0 ∨ damp ≠ 0)

/-- The 1×1 identity operator, used as a concrete test operator. -/
def opId1 : LsmrOp 1 1 :=
  { matvec := fun v => v
    rmatvec := fun u => u }

/-- The zero vector of length 1. -/
def zeroVec1 : Fin 1 → ℝ := fun _ => 0

/-- The all-ones vector of length 1. -/
def oneVec1 : Fin 1 → ℝ := fun _ => 1

/-! ## Facts about the rotation primitive -/

lemma tsign_of_pos {x : ℝ} (h : 0 < x) : tsign x = 1 := if_pos h

lemma tsign_of_neg {x : ℝ} (h : x < 0) : tsign x = -1 := by
  unfold tsign
  rw [if_neg (not_lt.mpr h.le), if_pos h]

lemma tsign_zero : tsign (0 : ℝ) = 0 := by simp [tsign]

lemma tsign_mul_abs (x : ℝ) : tsign x * |x| = x := by
  rcases lt_trichotomy x 0 with h | h | h
  · rw [tsign_of_neg h, abs_of_neg h]; ring
  · simp [h, tsign_zero]
  · rw [tsign_of_pos h, abs_of_pos h]; ring

lemma tsign_eq_div {x : ℝ} (hx : x ≠ 0) : tsign x = x / |x| := by
  have habs : |x| ≠ 0 := abs_ne_zero.mpr hx
  field_simp
  exact tsign_mul_abs x

/-- The radius of the rotation, in every branch, is `√(a² + b²)`, the cosine is
`a / √(a² + b²)` and the sine is `b / √(a² + b²)`, as soon as `(a, b) ≠ (0, 0)`. -/
theorem sym_ortho_eq (a b : ℝ) (hab : a ≠ 0 ∨ b ≠ 0) :
    _sym_ortho a b =
      (a / Real.sqrt (a ^ 2 + b ^ 2), b / Real.sqrt (a ^ 2 + b ^ 2),
        Real.sqrt (a ^ 2 + b ^ 2)) := by
  have h2 : 0 < a ^ 2 + b ^ 2 := by
    rcases hab with h | h
    · exact add_pos_of_pos_of_nonneg (pow_two_pos_of_ne_zero h) (sq_nonneg b)
    · exact add_pos_of_nonneg_of_pos (sq_nonneg a) (pow_two_pos_of_ne_zero h)
  have hρpos : 0 < Real.sqrt (a ^ 2 + b ^ 2) := Real.sqrt_pos.mpr h2
  have hρne : Real.sqrt (a ^ 2 + b ^ 2) ≠ 0 := ne_of_gt hρpos
  unfold _sym_ortho
  split_ifs with hb ha hba
  · -- case 1 : b = 0 (hence a ≠ 0)
    have ha : a ≠ 0 := hab.resolve_right (fun h => h hb)
    subst hb
    have hρ : Real.sqrt (a ^ 2 + 0 ^ 2) = |a| := by
      rw [show a ^ 2 + (0 : ℝ) ^ 2 = a ^ 2 by ring, Real.sqrt_sq_eq_abs]
    rw [hρ, tsign_eq_div ha]
    refine Prod.ext rfl (Prod.ext ?_ rfl)
    simp
  · -- case 2 : a = 0, b ≠ 0
    subst ha
    have hρ : Real.sqrt ((0 : ℝ) ^ 2 + b ^ 2) = |b| := by
      rw [show (0 : ℝ) ^ 2 + b ^ 2 = b ^ 2 by ring, Real.sqrt_sq_eq_abs]
    rw [hρ, tsign_eq_div hb]
    refine Prod.ext ?_ rfl
    simp
  · -- case 3 : |b| > |a|, a ≠ 0, b ≠ 0
    have hsq : Real.sqrt (1 + 1 / (b / a) ^ 2) = Real.sqrt (a ^ 2 + b ^ 2) / |b| := by
      have harg : 1 + 1 / (b / a) ^ 2 = (a ^ 2 + b ^ 2) / b ^ 2 := by
        field_simp
        ring
      rw [harg, Real.sqrt_div h2.le, Real.sqrt_sq_eq_abs]
    have hs3 : tsign b / Real.sqrt (1 + 1 / (b / a) ^ 2) =
        b / Real.sqrt (a ^ 2 + b ^ 2) := by
      rw [hsq, div_div_eq_mul_div, tsign_mul_abs]
    rw [hs3]
    refine Prod.ext ?_ (Prod.ext rfl ?_)
    · show b / Real.sqrt (a ^ 2 + b ^ 2) / (b / a) = a / Real.sqrt (a ^ 2 + b ^ 2)
      field_simp
      ring
    · show b / (b / Real.sqrt (a ^ 2 + b ^ 2)) = Real.sqrt (a ^ 2 + b ^ 2)
      field_simp
  · -- default branch : |a| ≥ |b|, a ≠ 0, b ≠ 0
    have hsq : Real.sqrt (1 + (b / a) ^ 2) = Real.sqrt (a ^ 2 + b ^ 2) / |a| := by
      have harg : 1 + (b / a) ^ 2 = (a ^ 2 + b ^ 2) / a ^ 2 := by
        field_simp
      rw [harg, Real.sqrt_div h2.le, Real.sqrt_sq_eq_abs]
    have hc : tsign a / Real.sqrt (1 + (b / a) ^ 2) =
        a / Real.sqrt (a ^ 2 + b ^ 2) := by
      rw [hsq, div_div_eq_mul_div, tsign_mul_abs]
    rw [hc]
    refine Prod.ext rfl (Prod.ext ?_ ?_)
    · show a / Real.sqrt (a ^ 2 + b ^ 2) * (b / a) = b / Real.sqrt (a ^ 2 + b ^ 2)
      field_simp
      ring
    · show a / (a / Real.sqrt (a ^ 2 + b ^ 2)) = Real.sqrt (a ^ 2 + b ^ 2)
      field_simp

/-- Claim C1: for every pair of real scalars (a, b) with a² + b² > 0, the
rotation primitive `_sym_ortho a b` returns (c, s, r) satisfying
c·a + s·b = r, −s·a + c·b = 0, c² + s² = 1 and r ≥ 0 (in exact arithmetic). -/
theorem sym_ortho_correct (a b : ℝ) (h : 0 < a ^ 2 + b ^ 2) :
    (_sym_ortho a b).1 * a + (_sym_ortho a b).2.1 * b = (_sym_ortho a b).2.2 ∧
    -(_sym_ortho a b).2.1 * a + (_sym_ortho a b).1 * b = 0 ∧
    (_sym_ortho a b).1 ^ 2 + (_sym_ortho a b).2.1 ^ 2 = 1 ∧
    0 ≤ (_sym_ortho a b).2.2 := by
  have hab : a ≠ 0 ∨ b ≠ 0 := by
    by_contra hcon
    push_neg at hcon
    rw [hcon.1, hcon.2] at h
    norm_num at h
  rw [sym_ortho_eq a b hab]
  have hρpos : 0 < Real.sqrt (a ^ 2 + b ^ 2) := Real.sqrt_pos.mpr h
  have hρne : Real.sqrt (a ^ 2 + b ^ 2) ≠ 0 := ne_of_gt hρpos
  have hρ2 : Real.sqrt (a ^ 2 + b ^ 2) ^ 2 = a ^ 2 + b ^ 2 := Real.sq_sqrt h.le
  refine ⟨?_, by ring, ?_, Real.sqrt_nonneg _⟩
  · field_simp
    nlinarith [hρ2]
  · field_simp

/-- Witness for `sym_ortho_correct` at the concrete input (a, b) = (3, 4). -/
theorem sym_ortho_correct_witness :
    (0 : ℝ) < 3 ^ 2 + 4 ^ 2 ∧
    ((_sym_ortho 3 4).1 * 3 + (_sym_ortho 3 4).2.1 * 4 = (_sym_ortho 3 4).2.2 ∧
     -(_sym_ortho 3 4).2.1 * 3 + (_sym_ortho 3 4).1 * 4 = 0 ∧
     (_sym_ortho 3 4).1 ^ 2 + (_sym_ortho 3 4).2.1 ^ 2 = 1 ∧
     0 ≤ (_sym_ortho 3 4).2.2) :=
  ⟨by norm_num, sym_ortho_correct 3 4 (by norm_num)⟩

/-- Claim C3 counterexample: the code's sign convention is `torch.sign`, for
which `sign 0 = 0`; hence `_sym_ortho 0 0 = (0, 0, 0)`, not the claimed
`(1, 0, 0)`. -/
theorem sym_ortho_zero_zero_ne : _sym_ortho 0 0 ≠ (1, 0, 0) := by
  have h : _sym_ortho (0 : ℝ) 0 = (0, 0, 0) := by
    unfold _sym_ortho
    rw [if_pos rfl, tsign_zero, abs_zero]
  rw [h]
  intro hcon
  have h0 : (0 : ℝ) = 1 := congrArg Prod.fst hcon
  norm_num at h0

/-- Claim C3 amended: the rotation primitive uses torch's sign convention
`sign 0 = 0`; `_sym_ortho 0 0` returns `(0, 0, 0)`, and whenever b = 0 it
returns c = sign a — which is 0, not 1, when a = 0. -/
theorem sym_ortho_b_zero (a : ℝ) :
    _sym_ortho a 0 = (tsign a, 0, |a|) ∧ _sym_ortho 0 0 = (0, 0, 0) ∧
    tsign 0 = 0 := by
  refine ⟨?_, ?_, tsign_zero⟩
  · unfold _sym_ortho
    rw [if_pos rfl]
  · unfold _sym_ortho
    rw [if_pos rfl, tsign_zero, abs_zero]

/-! ## Basic facts about the driver's loop -/

lemma norm2_fin0 (v : Fin 0 → ℝ) : norm2 v = 0 := by
  simp [norm2]

lemma lsmrStep_itn {m n : ℕ} (A : LsmrOp m n) (damp : ℝ) (st : LsmrCore m n) :
    (lsmrStep A damp st).itn = st.itn + 1 := rfl

lemma lsmrInit_itn {m n : ℕ} (A : LsmrOp m n) (b : Fin m → ℝ)
    (x0 : Option (Fin n → ℝ)) : (lsmrInit A b x0).itn = 0 := rfl

lemma lsmrInit_normar {m n : ℕ} (A : LsmrOp m n) (b : Fin m → ℝ)
    (x0 : Option (Fin n → ℝ)) :
    (lsmrInit A b x0).normar = (lsmrInit A b x0).alpha * (lsmrInit A b x0).beta :=
  rfl

lemma lsmrLoop_zero {m n : ℕ} (A : LsmrOp m n) (damp atol btol ctol normb : ℝ)
    (maxiter : ℕ) (verbose : Bool) (s : LsmrCore m n × ℕ) :
    lsmrLoop A damp atol btol ctol normb maxiter verbose 0 s = s := rfl

open Classical in
lemma lsmrLoop_succ {m n : ℕ} (A : LsmrOp m n) (damp atol btol ctol normb : ℝ)
    (maxiter : ℕ) (verbose : Bool) (fuel : ℕ) (st : LsmrCore m n) (pc : ℕ) :
    lsmrLoop A damp atol btol ctol normb maxiter verbose (fuel + 1) (st, pc) =
      (if stopCond atol btol ctol normb maxiter (lsmrStep A damp st) then
        (lsmrStep A damp st,
          if verbose then
            printUpdate atol btol ctol normb maxiter (lsmrStep A damp st) pc
          else pc)
      else
        lsmrLoop A damp atol btol ctol normb maxiter verbose fuel
          (lsmrStep A damp st,
            if verbose then
              printUpdate atol btol ctol normb maxiter (lsmrStep A damp st) pc
            else pc)) := rfl

lemma lsmrLoop_itn_le {m n : ℕ} (A : LsmrOp m n) (damp atol btol ctol normb : ℝ)
    (maxiter : ℕ) (verbose : Bool) :
    ∀ (fuel : ℕ) (s : LsmrCore m n × ℕ),
      ((lsmrLoop A damp atol btol ctol normb maxiter verbose fuel s).1).itn ≤
        max maxiter (s.1.itn + 1) := by
  intro fuel
  induction fuel with
  | zero =>
    intro s
    rw [lsmrLoop_zero]
    exact le_max_of_le_right (Nat.le_succ _)
  | succ fuel ih =>
    rintro ⟨st, pc⟩
    rw [lsmrLoop_succ]
    by_cases hstop : stopCond atol btol ctol normb maxiter (lsmrStep A damp st)
    · rw [if_pos hstop]
      show (lsmrStep A damp st).itn ≤ max maxiter (st.itn + 1)
      rw [lsmrStep_itn]
      exact le_max_of_le_right le_rfl
    · rw [if_neg hstop]
      have hlt : st.itn + 1 < maxiter := by
        by_contra hge
        exact hstop (Or.inl (by rw [lsmrStep_itn]; omega))
      have h2 := ih (lsmrStep A damp st,
        if verbose then
          printUpdate atol btol ctol normb maxiter (lsmrStep A damp st) pc
        else pc)
      have h2' : ((lsmrLoop A damp atol btol ctol normb maxiter verbose fuel
          (lsmrStep A damp st,
            if verbose then
              printUpdate atol btol ctol normb maxiter (lsmrStep A damp st) pc
            else pc)).1).itn ≤ max maxiter ((lsmrStep A damp st).itn + 1) := h2
      rw [lsmrStep_itn, Nat.max_eq_left (by omega : st.itn + 1 + 1 ≤ maxiter)] at h2'
      exact le_trans h2' (le_max_left _ _)

lemma lsmrLoop_itn_mono {m n : ℕ} (A : LsmrOp m n) (damp atol btol ctol normb : ℝ)
    (maxiter : ℕ) (verbose : Bool) :
    ∀ (fuel : ℕ) (s : LsmrCore m n × ℕ),
      s.1.itn ≤ ((lsmrLoop A damp atol btol ctol normb maxiter verbose fuel s).1).itn := by
  intro fuel
  induction fuel with
  | zero =>
    intro s
    rw [lsmrLoop_zero]
  | succ fuel ih =>
    rintro ⟨st, pc⟩
    rw [lsmrLoop_succ]
    by_cases hstop : stopCond atol btol ctol normb maxiter (lsmrStep A damp st)
    · rw [if_pos hstop]
      show st.itn ≤ (lsmrStep A damp st).itn
      rw [lsmrStep_itn]
      exact Nat.le_succ _
    · rw [if_neg hstop]
      have h2 := ih (lsmrStep A damp st,
        if verbose then
          printUpdate atol btol ctol normb maxiter (lsmrStep A damp st) pc
        else pc)
      have h2' : (lsmrStep A damp st).itn ≤
          ((lsmrLoop A damp atol btol ctol normb maxiter verbose fuel
            (lsmrStep A damp st,
              if verbose then
                printUpdate atol btol ctol normb maxiter (lsmrStep A damp st) pc
              else pc)).1).itn := h2
      rw [lsmrStep_itn] at h2'
      exact le_trans (Nat.le_succ st.itn) h2'

lemma lsmrLoop_one_le {m n : ℕ} (A : LsmrOp m n) (damp atol btol ctol normb : ℝ)
    (maxiter : ℕ) (verbose : Bool) (fuel : ℕ) (st : LsmrCore m n) (pc : ℕ) :
    st.itn + 1 ≤
      ((lsmrLoop A damp atol btol ctol normb maxiter verbose (fuel + 1) (st, pc)).1).itn := by
  rw [lsmrLoop_succ]
  by_cases hstop : stopCond atol btol ctol normb maxiter (lsmrStep A damp st)
  · rw [if_pos hstop]
    show st.itn + 1 ≤ (lsmrStep A damp st).itn
    rw [lsmrStep_itn]
  · rw [if_neg hstop]
    have h2 := lsmrLoop_itn_mono A damp atol btol ctol normb maxiter verbose fuel
      (lsmrStep A damp st,
        if verbose then
          printUpdate atol btol ctol normb maxiter (lsmrStep A damp st) pc
        else pc)
    have h2' : (lsmrStep A damp st).itn ≤
        ((lsmrLoop A damp atol btol ctol normb maxiter verbose fuel
          (lsmrStep A damp st,
            if verbose then
              printUpdate atol btol ctol normb maxiter (lsmrStep A damp st) pc
            else pc)).1).itn := h2
    rw [lsmrStep_itn] at h2'
    exact h2'

lemma lsmrLoop_stops {m n : ℕ} (A : LsmrOp m n) (damp atol btol ctol normb : ℝ)
    (maxiter : ℕ) (verbose : Bool) :
    ∀ (fuel : ℕ) (s : LsmrCore m n × ℕ), maxiter ≤ s.1.itn + fuel →
      stopCond atol btol ctol normb maxiter
        ((lsmrLoop A damp atol btol ctol normb maxiter verbose (fuel + 1) s).1) := by
  intro fuel
  induction fuel with
  | zero =>
    rintro ⟨st, pc⟩ hle
    have hle' : maxiter ≤ st.itn + 0 := hle
    rw [lsmrLoop_succ]
    by_cases hstop : stopCond atol btol ctol normb maxiter (lsmrStep A damp st)
    · rw [if_pos hstop]
      exact hstop
    · rw [if_neg hstop, lsmrLoop_zero]
      exact absurd (Or.inl (show maxiter ≤ (lsmrStep A damp st).itn by
        rw [lsmrStep_itn]; omega)) hstop
  | succ fuel ih =>
    rintro ⟨st, pc⟩ hle
    have hle' : maxiter ≤ st.itn + (fuel + 1) := hle
    rw [lsmrLoop_succ]
    by_cases hstop : stopCond atol btol ctol normb maxiter (lsmrStep A damp st)
    · rw [if_pos hstop]
      exact hstop
    · rw [if_neg hstop]
      refine ih _ ?_
      show maxiter ≤ (lsmrStep A damp st).itn + fuel
      rw [lsmrStep_itn]
      omega

/-! ## Claims about the driver -/

/-- Claim C2: if at initialization α·β = 0, `lsmr` returns through the normal
return path with iteration count 0, normar = 0, and x equal to the initial
guess (x0 if supplied, else the zero vector of length n); the embedding is a
total function, so no error value exists on this path. -/
theorem lsmr_immediate_termination {m n : ℕ} (A : LsmrOp m n) (b : Fin m → ℝ)
    (damp atol btol conlim : ℝ) (maxiter : Option ℕ) (verbose : Bool)
    (x0 : Option (Fin n → ℝ))
    (h : (lsmrInit A b x0).alpha * (lsmrInit A b x0).beta = 0) :
    (lsmr A b damp atol btol conlim maxiter verbose x0).itn = 0 ∧
    (lsmr A b damp atol btol conlim maxiter verbose x0).normar = 0 ∧
    (lsmr A b damp atol btol conlim maxiter verbose x0).x =
      x0.getD (fun _ => (0 : ℝ)) := by
  have hnormar : (lsmrInit A b x0).normar = 0 := by
    rw [lsmrInit_normar, h]
  unfold lsmr
  rw [if_pos hnormar]
  refine ⟨rfl, hnormar, ?_⟩
  cases x0
  · rfl
  · rfl

/-- Witness for `lsmr_immediate_termination` with the 1×1 identity operator
and b = 0 (no initial guess). -/
theorem lsmr_immediate_termination_witness :
    ((lsmrInit opId1 zeroVec1 none).alpha * (lsmrInit opId1 zeroVec1 none).beta = 0) ∧
    ((lsmr opId1 zeroVec1 0 0 0 0 none false none).itn = 0 ∧
     (lsmr opId1 zeroVec1 0 0 0 0 none false none).normar = 0 ∧
     (lsmr opId1 zeroVec1 0 0 0 0 none false none).x = fun _ => (0 : ℝ)) := by
  have hb : (lsmrInit opId1 zeroVec1 none).beta = 0 := by
    norm_num [lsmrInit, norm2, zeroVec1]
  have h : (lsmrInit opId1 zeroVec1 none).alpha * (lsmrInit opId1 zeroVec1 none).beta = 0 := by
    rw [hb, mul_zero]
  exact ⟨h, lsmr_immediate_termination opId1 zeroVec1 0 0 0 0 none false none h⟩

/-- Claim C4 counterexample: with the 1×1 identity operator, b = 0 and the
nonzero initial guess x0 = (1), `lsmr` does not return with iteration count 0
(the initial `normar = α·β = 1 ≠ 0`, so the loop runs). -/
theorem lsmr_zero_b_nonzero_x0_iterates :
    (lsmr opId1 zeroVec1 0 (1 / 1000000) (1 / 1000000) (10 ^ 8) (some 1) false
      (some oneVec1)).itn ≠ 0 := by
  have hval : (lsmrInit opId1 zeroVec1 (some oneVec1)).normar = 1 := by
    norm_num [lsmrInit, norm2, opId1, zeroVec1, oneVec1, Fin.sum_univ_one]
  have hne : ¬ (lsmrInit opId1 zeroVec1 (some oneVec1)).normar = 0 := by
    rw [hval]; norm_num
  unfold lsmr
  rw [if_neg hne]
  have h1 := lsmrLoop_one_le opId1 0 (1 / 1000000) (1 / 1000000)
    (if 0 < (10 ^ 8 : ℝ) then 1 / 10 ^ 8 else 0) (norm2 zeroVec1)
    ((some 1).getD (min 1 1)) false ((some 1).getD (min 1 1))
    (lsmrInit opId1 zeroVec1 (some oneVec1)) 0
  rw [lsmrInit_itn, Nat.zero_add] at h1
  exact Nat.one_le_iff_ne_zero.mp h1

/-- Claim C4 amended: for every operator A, calling `lsmr` with b = 0 and x0
omitted returns the zero vector with iteration count 0; with a nonzero
initial guess the solver may iterate (it returns at once only when the
initial α·β = 0). -/
theorem lsmr_zero_b_default_x0 {m n : ℕ} (A : LsmrOp m n)
    (damp atol btol conlim : ℝ) (maxiter : Option ℕ) (verbose : Bool) :
    (lsmr A (fun _ => 0) damp atol btol conlim maxiter verbose none).x =
      (fun _ => (0 : ℝ)) ∧
    (lsmr A (fun _ => 0) damp atol btol conlim maxiter verbose none).itn = 0 := by
  have hb : (lsmrInit A (fun _ => 0) none).beta = 0 := by
    simp [lsmrInit, norm2]
  have h0 : (lsmrInit A (fun _ => (0 : ℝ)) none).normar = 0 := by
    rw [lsmrInit_normar, hb, mul_zero]
  unfold lsmr
  rw [if_pos h0]
  exact ⟨rfl, rfl⟩

lemma lsmr_itn_cap_aux {m n : ℕ} (A : LsmrOp m n) (b : Fin m → ℝ)
    (damp atol btol conlim : ℝ) (verbose : Bool) (x0 : Option (Fin n → ℝ))
    (mo : Option ℕ) (mv : ℕ) (hval : mo.getD (min m n) = mv) (h1 : 1 ≤ mv) :
    (lsmr A b damp atol btol conlim mo verbose x0).itn ≤ mv := by
  unfold lsmr
  rw [hval]
  by_cases h0 : (lsmrInit A b x0).normar = 0
  · rw [if_pos h0]
    exact Nat.zero_le _
  · rw [if_neg h0]
    have hle := lsmrLoop_itn_le A damp atol btol
      (if 0 < conlim then 1 / conlim else 0) (norm2 b) mv verbose (mv + 1)
      (lsmrInit A b x0, 0)
    have hle' : ((lsmrLoop A damp atol btol
        (if 0 < conlim then 1 / conlim else 0) (norm2 b) mv verbose (mv + 1)
        (lsmrInit A b x0, 0)).1).itn ≤ max mv ((lsmrInit A b x0).itn + 1) := hle
    rw [lsmrInit_itn, Nat.zero_add, Nat.max_eq_left h1] at hle'
    exact hle'

/-- Claim C5: `lsmr` always terminates (the embedding is total, with the fuel
`maxiter + 1` provably sufficient by `lsmrLoop_stops`); for any cap
maxiter ≥ 1 the returned iteration count is at most maxiter regardless of the
tolerance settings, and when maxiter is omitted the cap is min(m, n). -/
theorem lsmr_iteration_cap {m n : ℕ} (A : LsmrOp m n) (b : Fin m → ℝ)
    (damp atol btol conlim : ℝ) (verbose : Bool) (x0 : Option (Fin n → ℝ))
    (maxiterv : ℕ) (hmax : 1 ≤ maxiterv) :
    (lsmr A b damp atol btol conlim (some maxiterv) verbose x0).itn ≤ maxiterv ∧
    (lsmr A b damp atol btol conlim none verbose x0).itn ≤ min m n := by
  refine ⟨lsmr_itn_cap_aux A b damp atol btol conlim verbose x0 (some maxiterv)
    maxiterv rfl hmax, ?_⟩
  rcases Nat.eq_zero_or_pos (min m n) with hmn | hmn
  · have h0 : (lsmrInit A b x0).normar = 0 := by
      rcases Nat.min_eq_zero_iff.mp hmn with hm | hn
      · subst hm
        have hb : (lsmrInit A b x0).beta = 0 := by
          cases x0 <;> simp [lsmrInit, norm2_fin0]
        rw [lsmrInit_normar, hb, mul_zero]
      · subst hn
        have ha : (lsmrInit A b x0).alpha = 0 := by
          cases x0 <;> simp [lsmrInit, norm2_fin0]
        rw [lsmrInit_normar, ha, zero_mul]
    unfold lsmr
    rw [if_pos h0]
    exact Nat.zero_le _
  · exact lsmr_itn_cap_aux A b damp atol btol conlim verbose x0 none (min m n)
      rfl hmn

/-- Witness for `lsmr_iteration_cap` at the 1×1 identity operator, b = (1),
maxiter = 1. -/
theorem lsmr_iteration_cap_witness :
    1 ≤ 1 ∧
    ((lsmr opId1 oneVec1 0 0 0 0 (some 1) false none).itn ≤ 1 ∧
     (lsmr opId1 oneVec1 0 0 0 0 none false none).itn ≤ min 1 1) :=
  ⟨le_refl 1, lsmr_iteration_cap opId1 oneVec1 0 0 0 0 false none 1 (le_refl 1)⟩

lemma lsmrLoop_fst_eq {m n : ℕ} (A : LsmrOp m n) (damp atol btol ctol normb : ℝ)
    (maxiter : ℕ) :
    ∀ (fuel : ℕ) (st : LsmrCore m n) (pc1 pc2 : ℕ),
      (lsmrLoop A damp atol btol ctol normb maxiter true fuel (st, pc1)).1 =
      (lsmrLoop A damp atol btol ctol normb maxiter false fuel (st, pc2)).1 := by
  intro fuel
  induction fuel with
  | zero => intro st pc1 pc2; rfl
  | succ fuel ih =>
    intro st pc1 pc2
    rw [lsmrLoop_succ, lsmrLoop_succ]
    by_cases hstop : stopCond atol btol ctol normb maxiter (lsmrStep A damp st)
    · rw [if_pos hstop, if_pos hstop]
    · rw [if_neg hstop, if_neg hstop]
      exact ih (lsmrStep A damp st) _ _

/-- Claim C9: the verbose flag (`show` in the source) has no effect on the
numerical result: `lsmr` returns the identical 7-tuple with `verbose = true`
and `verbose = false` (in the embedding the flag only drives the print
counter `pcount`, which never feeds back into the numeric state). -/
theorem lsmr_verbose_independent {m n : ℕ} (A : LsmrOp m n) (b : Fin m → ℝ)
    (damp atol btol conlim : ℝ) (maxiter : Option ℕ) (x0 : Option (Fin n → ℝ)) :
    lsmr A b damp atol btol conlim maxiter true x0 =
      lsmr A b damp atol btol conlim maxiter false x0 := by
  unfold lsmr
  by_cases h0 : (lsmrInit A b x0).normar = 0
  · simp only [if_pos h0]
  · simp only [if_neg h0]
    rw [lsmrLoop_fst_eq A damp atol btol (if 0 < conlim then 1 / conlim else 0)
      (norm2 b) (maxiter.getD (min m n)) (maxiter.getD (min m n) + 1)
      (lsmrInit A b x0) 0 0]

/-! ## The condition-number invariant (claim C6) -/

lemma sq_sum_pos {a b : ℝ} (hab : a ≠ 0 ∨ b ≠ 0) : 0 < a ^ 2 + b ^ 2 := by
  rcases hab with h | h
  · exact add_pos_of_pos_of_nonneg (pow_two_pos_of_ne_zero h) (sq_nonneg b)
  · exact add_pos_of_nonneg_of_pos (sq_nonneg a) (pow_two_pos_of_ne_zero h)

lemma sym_ortho_r_pos {a b : ℝ} (hab : a ≠ 0 ∨ b ≠ 0) :
    0 < (_sym_ortho a b).2.2 := by
  rw [sym_ortho_eq a b hab]
  exact Real.sqrt_pos.mpr (sq_sum_pos hab)

lemma sym_ortho_c_pos {a b : ℝ} (ha : 0 < a) : 0 < (_sym_ortho a b).1 := by
  have hab : a ≠ 0 ∨ b ≠ 0 := Or.inl (ne_of_gt ha)
  rw [sym_ortho_eq a b hab]
  exact div_pos ha (Real.sqrt_pos.mpr (sq_sum_pos hab))

lemma sym_ortho_b0 (a : ℝ) : _sym_ortho a 0 = (tsign a, 0, |a|) := by
  unfold _sym_ortho
  rw [if_pos rfl]

lemma stepAlphahat_pos {m n : ℕ} (damp : ℝ) (st : LsmrCore m n)
    (hab : st.alphabar ≠ 0 ∨ damp ≠ 0) : 0 < stepAlphahat damp st :=
  sym_ortho_r_pos hab

lemma stepRho_pos {m n : ℕ} (A : LsmrOp m n) (damp : ℝ) (st : LsmrCore m n)
    (hab : st.alphabar ≠ 0 ∨ damp ≠ 0) : 0 < stepRho A damp st :=
  sym_ortho_r_pos (Or.inl (ne_of_gt (stepAlphahat_pos damp st hab)))

lemma stepRhotemp_pos {m n : ℕ} (A : LsmrOp m n) (damp : ℝ) (st : LsmrCore m n)
    (hc : 0 < st.cbar) (hab : st.alphabar ≠ 0 ∨ damp ≠ 0) :
    0 < stepRhotemp A damp st :=
  mul_pos hc (stepRho_pos A damp st hab)

lemma stepRhobar_pos {m n : ℕ} (A : LsmrOp m n) (damp : ℝ) (st : LsmrCore m n)
    (hc : 0 < st.cbar) (hab : st.alphabar ≠ 0 ∨ damp ≠ 0) :
    0 < stepRhobar A damp st :=
  sym_ortho_r_pos (Or.inl (ne_of_gt (stepRhotemp_pos A damp st hc hab)))

lemma stepCbar_pos {m n : ℕ} (A : LsmrOp m n) (damp : ℝ) (st : LsmrCore m n)
    (hc : 0 < st.cbar) (hab : st.alphabar ≠ 0 ∨ damp ≠ 0) :
    0 < stepCbar A damp st :=
  sym_ortho_c_pos (stepRhotemp_pos A damp st hc hab)

lemma stepC_pos {m n : ℕ} (A : LsmrOp m n) (damp : ℝ) (st : LsmrCore m n)
    (hab : st.alphabar ≠ 0 ∨ damp ≠ 0) : 0 < stepC A damp st :=
  sym_ortho_c_pos (stepAlphahat_pos damp st hab)

lemma stepMinrbar_pos {m n : ℕ} (st : LsmrCore m n) (hmin : 0 < st.minrbar)
    (hrb : 0 < st.rhobar) : 0 < stepMinrbar st := by
  unfold stepMinrbar
  split_ifs
  · exact lt_min hmin hrb
  · exact hmin

lemma stepCondA_ge_one {m n : ℕ} (A : LsmrOp m n) (damp : ℝ) (st : LsmrCore m n)
    (hc : 0 < st.cbar) (hrb : 0 < st.rhobar) (hmin : 0 < st.minrbar)
    (hab : st.alphabar ≠ 0 ∨ damp ≠ 0) : 1 ≤ stepCondA A damp st := by
  have hden : 0 < min (stepMinrbar st) (stepRhotemp A damp st) :=
    lt_min (stepMinrbar_pos st hmin hrb) (stepRhotemp_pos A damp st hc hab)
  unfold stepCondA
  rw [one_le_div hden]
  exact le_trans (min_le_right _ _) (le_max_right _ _)

lemma stepNormA_pos {m n : ℕ} (A : LsmrOp m n) (st : LsmrCore m n)
    (hA2 : 0 < st.normA2) : 0 < stepNormA A st := by
  unfold stepNormA stepNormA2mid
  exact Real.sqrt_pos.mpr (add_pos_of_pos_of_nonneg hA2 (sq_nonneg _))

lemma stopCond_iff {m n : ℕ} (atol btol ctol normb : ℝ) (maxiter : ℕ)
    (st : LsmrCore m n) :
    stopCond atol btol ctol normb maxiter st ↔
      (maxiter ≤ st.itn) ∨ (1 + 1 / st.condA ≤ 1) ∨
      ((1 : WithTop ℝ) + test2v st ≤ 1) ∨
      (1 + st.normr / normb / (1 + st.normA * st.normx / normb) ≤ 1) ∨
      (1 / st.condA ≤ ctol) ∨ (test2v st ≤ ((atol : ℝ) : WithTop ℝ)) ∨
      (st.normr / normb ≤ btol + atol * st.normA * st.normx / normb) :=
  Iff.rfl

lemma step_stop_of_alpha_zero {m n : ℕ} (A : LsmrOp m n)
    (damp atol btol ctol normb : ℝ) (maxiter : ℕ) (st : LsmrCore m n)
    (hA2 : 0 < st.normA2) (hα : stepAlpha A st = 0) :
    stopCond atol btol ctol normb maxiter (lsmrStep A damp st) := by
  have hθ : stepThetanew A damp st = 0 := by
    unfold stepThetanew
    rw [hα, mul_zero]
  have hsb : stepSbar A damp st = 0 := by
    unfold stepSbar
    rw [hθ, sym_ortho_b0]
  have hzb : stepZetabar A damp st = 0 := by
    unfold stepZetabar
    rw [hsb]
    ring
  have hnormar : (lsmrStep A damp st).normar = 0 := by
    show |stepZetabar A damp st| = 0
    rw [hzb, abs_zero]
  rw [stopCond_iff]
  by_cases hprod : (lsmrStep A damp st).normA * (lsmrStep A damp st).normr = 0
  · have hA : (0 : ℝ) < (lsmrStep A damp st).normA := stepNormA_pos A st hA2
    have hr : (lsmrStep A damp st).normr = 0 := by
      rcases mul_eq_zero.mp hprod with h | h
      · exact absurd h (ne_of_gt hA)
      · exact h
    refine Or.inr (Or.inr (Or.inr (Or.inl ?_)))
    rw [hr, zero_div, zero_div, add_zero]
  · refine Or.inr (Or.inr (Or.inl ?_))
    have ht2 : test2v (lsmrStep A damp st) = ((0 : ℝ) : WithTop ℝ) := by
      unfold test2v
      rw [if_neg hprod, hnormar, zero_div]
    rw [ht2, ← WithTop.coe_one, ← WithTop.coe_add, WithTop.coe_le_coe]
    norm_num

lemma lsmrInv_step {m n : ℕ} (A : LsmrOp m n) (damp atol btol ctol normb : ℝ)
    (maxiter : ℕ) (st : LsmrCore m n) (hInv : LsmrInv damp st)
    (hstop : ¬ stopCond atol btol ctol normb maxiter (lsmrStep A damp st)) :
    LsmrInv damp (lsmrStep A damp st) := by
  obtain ⟨hc, hrb, hmin, hA2, hab⟩ := hInv
  refine ⟨stepCbar_pos A damp st hc hab, stepRhobar_pos A damp st hc hab,
    stepMinrbar_pos st hmin hrb, ?_, ?_⟩
  · show 0 < stepNormA2mid A st + stepAlpha A st ^ 2
    unfold stepNormA2mid
    exact add_pos_of_pos_of_nonneg
      (add_pos_of_pos_of_nonneg hA2 (sq_nonneg _)) (sq_nonneg _)
  · by_cases hd : damp = 0
    · left
      show stepAlphabar A damp st ≠ 0
      intro h0
      unfold stepAlphabar at h0
      have hα : stepAlpha A st = 0 := by
        rcases mul_eq_zero.mp h0 with h | h
        · exact absurd h (ne_of_gt (stepC_pos A damp st hab))
        · exact h
      exact hstop
        (step_stop_of_alpha_zero A damp atol btol ctol normb maxiter st hA2 hα)
    · exact Or.inr hd

lemma lsmrInit_normA2 {m n : ℕ} (A : LsmrOp m n) (b : Fin m → ℝ)
    (x0 : Option (Fin n → ℝ)) :
    (lsmrInit A b x0).normA2 = (lsmrInit A b x0).alpha * (lsmrInit A b x0).alpha :=
  rfl

lemma lsmrInit_alphabar {m n : ℕ} (A : LsmrOp m n) (b : Fin m → ℝ)
    (x0 : Option (Fin n → ℝ)) :
    (lsmrInit A b x0).alphabar = (lsmrInit A b x0).alpha := rfl

lemma lsmrInit_cbar {m n : ℕ} (A : LsmrOp m n) (b : Fin m → ℝ)
    (x0 : Option (Fin n → ℝ)) : (lsmrInit A b x0).cbar = 1 := rfl

lemma lsmrInit_rhobar {m n : ℕ} (A : LsmrOp m n) (b : Fin m → ℝ)
    (x0 : Option (Fin n → ℝ)) : (lsmrInit A b x0).rhobar = 1 := rfl

lemma lsmrInit_minrbar {m n : ℕ} (A : LsmrOp m n) (b : Fin m → ℝ)
    (x0 : Option (Fin n → ℝ)) : (lsmrInit A b x0).minrbar = 0.99 * floatMax := rfl

lemma lsmrInit_condA {m n : ℕ} (A : LsmrOp m n) (b : Fin m → ℝ)
    (x0 : Option (Fin n → ℝ)) : (lsmrInit A b x0).condA = 1 := rfl

lemma floatMax_pos : 0 < floatMax := by
  unfold floatMax
  norm_num

lemma lsmrInit_inv {m n : ℕ} (A : LsmrOp m n) (b : Fin m → ℝ)
    (x0 : Option (Fin n → ℝ)) (damp : ℝ)
    (h : (lsmrInit A b x0).normar ≠ 0) : LsmrInv damp (lsmrInit A b x0) := by
  have ha : (lsmrInit A b x0).alpha ≠ 0 := by
    intro h0
    exact h (by rw [lsmrInit_normar, h0, zero_mul])
  refine ⟨?_, ?_, ?_, ?_, Or.inl ?_⟩
  · rw [lsmrInit_cbar]
    norm_num
  · rw [lsmrInit_rhobar]
    norm_num
  · rw [lsmrInit_minrbar]
    exact mul_pos (by norm_num) floatMax_pos
  · rw [lsmrInit_normA2]
    exact mul_self_pos.mpr ha
  · rw [lsmrInit_alphabar]
    exact ha

lemma lsmrLoop_condA {m n : ℕ} (A : LsmrOp m n) (damp atol btol ctol normb : ℝ)
    (maxiter : ℕ) (verbose : Bool) :
    ∀ (fuel : ℕ) (st : LsmrCore m n) (pc : ℕ), LsmrInv damp st → 1 ≤ st.condA →
      1 ≤ ((lsmrLoop A damp atol btol ctol normb maxiter verbose fuel
        (st, pc)).1).condA := by
  intro fuel
  induction fuel with
  | zero =>
    intro st pc _ hc1
    rw [lsmrLoop_zero]
    exact hc1
  | succ fuel ih =>
    intro st pc hInv hc1
    obtain ⟨hc, hrb, hmin, hA2, hab⟩ := hInv
    have hcond : 1 ≤ (lsmrStep A damp st).condA :=
      stepCondA_ge_one A damp st hc hrb hmin hab
    rw [lsmrLoop_succ]
    by_cases hstop : stopCond atol btol ctol normb maxiter (lsmrStep A damp st)
    · rw [if_pos hstop]
      exact hcond
    · rw [if_neg hstop]
      exact ih _ _ (lsmrInv_step A damp atol btol ctol normb maxiter st
        ⟨hc, hrb, hmin, hA2, hab⟩ hstop) hcond

/-- Claim C6: the condition-number estimate satisfies condA ≥ 1 at every
point after it is first computed: under the loop invariant (established at
initialization and preserved while the loop runs) the condA used by each
iteration's convergence test is at least 1, and the condA returned by `lsmr`
is always at least 1. -/
theorem lsmr_condA_ge_one {m n : ℕ} (A : LsmrOp m n) (b : Fin m → ℝ)
    (damp atol btol conlim : ℝ) (maxiter : Option ℕ) (verbose : Bool)
    (x0 : Option (Fin n → ℝ)) (st : LsmrCore m n) (hInv : LsmrInv damp st) :
    1 ≤ (lsmrStep A damp st).condA ∧
    1 ≤ (lsmr A b damp atol btol conlim maxiter verbose x0).condA := by
  obtain ⟨hc, hrb, hmin, hA2, hab⟩ := hInv
  refine ⟨stepCondA_ge_one A damp st hc hrb hmin hab, ?_⟩
  unfold lsmr
  by_cases h0 : (lsmrInit A b x0).normar = 0
  · rw [if_pos h0]
    exact le_of_eq (lsmrInit_condA A b x0).symm
  · rw [if_neg h0]
    exact lsmrLoop_condA A damp atol btol (if 0 < conlim then 1 / conlim else 0)
      (norm2 b) (maxiter.getD (min m n)) verbose (maxiter.getD (min m n) + 1)
      (lsmrInit A b x0) 0 (lsmrInit_inv A b x0 damp h0)
      (le_of_eq (lsmrInit_condA A b x0).symm)

/-- Witness for `lsmr_condA_ge_one`: the invariant holds at the state
initialized from the 1×1 identity operator and b = (1) with damp = 0, and the
conclusion is instantiated there. -/
theorem lsmr_condA_ge_one_witness :
    LsmrInv 0 (lsmrInit opId1 oneVec1 none) ∧
    (1 ≤ (lsmrStep opId1 0 (lsmrInit opId1 oneVec1 none)).condA ∧
     1 ≤ (lsmr opId1 oneVec1 0 0 0 0 none false none).condA) := by
  have hnar : (lsmrInit opId1 oneVec1 none).normar ≠ 0 := by
    have h1 : (lsmrInit opId1 oneVec1 none).normar = 1 := by
      norm_num [lsmrInit, norm2, opId1, oneVec1, Fin.sum_univ_one]
    rw [h1]
    norm_num
  have hInv : LsmrInv 0 (lsmrInit opId1 oneVec1 none) :=
    lsmrInit_inv opId1 oneVec1 none 0 hnar
  exact ⟨hInv, lsmr_condA_ge_one opId1 oneVec1 0 0 0 0 none false none _ hInv⟩

/-! ## The masked test2 (claim C7) and shape validation (claim C8) -/

/-- Claim C7: in every iteration's convergence test, when the product
normA·normr is exactly zero, test2 is the masked ⊤ (+inf) rather than the
result of a division, so neither the machine-precision guard 1 + test2 ≤ 1
nor the user-tolerance stopping condition test2 ≤ atol can fire. -/
theorem test2_masked_inf {m n : ℕ} (st : LsmrCore m n) (atol : ℝ)
    (h : st.normA * st.normr = 0) :
    test2v st = ⊤ ∧ ¬ ((1 : WithTop ℝ) + test2v st ≤ 1) ∧
    ¬ (test2v st ≤ ((atol : ℝ) : WithTop ℝ)) := by
  have ht : test2v st = ⊤ := by
    unfold test2v
    rw [if_pos h]
  refine ⟨ht, ?_, ?_⟩
  · rw [ht, WithTop.add_top]
    intro hc
    have h1 : (1 : WithTop ℝ) = ⊤ := top_le_iff.mp hc
    rw [← WithTop.coe_one] at h1
    exact WithTop.coe_ne_top h1
  · rw [ht]
    intro hc
    exact WithTop.coe_ne_top (top_le_iff.mp hc)

/-- Witness for `test2_masked_inf` at the state initialized from b = 0, where
normA = 0. -/
theorem test2_masked_inf_witness :
    ((lsmrInit opId1 zeroVec1 none).normA * (lsmrInit opId1 zeroVec1 none).normr = 0) ∧
    (test2v (lsmrInit opId1 zeroVec1 none) = ⊤ ∧
     ¬ ((1 : WithTop ℝ) + test2v (lsmrInit opId1 zeroVec1 none) ≤ 1) ∧
     ¬ (test2v (lsmrInit opId1 zeroVec1 none) ≤ ((1 / 1000000 : ℝ) : WithTop ℝ))) := by
  have hA : (lsmrInit opId1 zeroVec1 none).normA = 0 := by
    norm_num [lsmrInit, norm2, zeroVec1]
  have h : (lsmrInit opId1 zeroVec1 none).normA *
      (lsmrInit opId1 zeroVec1 none).normr = 0 := by
    rw [hA, zero_mul]
  exact ⟨h, test2_masked_inf _ (1 / 1000000) h⟩

/-- Claim C8 counterexample: `lsmr` performs no shape validation at entry.
With the 1×1 identity operator and the zero vector b of mismatched length 2
(x0 omitted), the entry computes beta = 0 before any operator product and
returns through the normal `normar == 0` path with iteration count 0 and no
error — refuting "fails fast with a descriptive error at entry". -/
theorem lsmr_mismatched_b_no_error :
    (([0, 0] : List ℝ).length ≠ 1) ∧
    lsmrEntry opId1 [0, 0] 0 (1 / 1000000) (1 / 1000000) (10 ^ 8) none false
        none =
      Except.ok
        { x := fun _ => 0
          itn := 0
          normr := listNorm2 [0, 0]
          normar := 0
          normA := Real.sqrt (0 * 0)
          condA := 1
          normx := 0 } := by
  refine ⟨by norm_num, ?_⟩
  have hz : listNorm2 ([0, 0] : List ℝ) = 0 := by
    norm_num [listNorm2]
  unfold lsmrEntry
  rw [if_neg (by rw [hz]; exact lt_irrefl 0)]

/-- Claim C8 amended: `lsmr` performs no shape validation at entry; whenever
the initial beta = ||b|| is zero — in particular for a zero-filled b of any
length, whether it matches m or not, with x0 omitted — it returns through the
normal path with iteration count 0, x the zero vector and no error, never
applying the operator.  A mismatched vector can fail only inside an operator
product (code of `linear_operator.py`, outside these sources), never at
`lsmr`'s own entry. -/
theorem lsmr_no_shape_validation {m n : ℕ} (A : LsmrOp m n) (b : List ℝ)
    (damp atol btol conlim : ℝ) (maxiter : Option ℕ) (verbose : Bool)
    (hz : listNorm2 b = 0) :
    lsmrEntry A b damp atol btol conlim maxiter verbose none =
      Except.ok
        { x := fun _ => 0
          itn := 0
          normr := listNorm2 b
          normar := 0
          normA := Real.sqrt (0 * 0)
          condA := 1
          normx := 0 } := by
  unfold lsmrEntry
  rw [if_neg (by rw [hz]; exact lt_irrefl 0)]

/-- Witness for `lsmr_no_shape_validation` at the zero vector of length 3
against an operator with m = 1. -/
theorem lsmr_no_shape_validation_witness :
    listNorm2 ([0, 0, 0] : List ℝ) = 0 ∧
    lsmrEntry opId1 [0, 0, 0] 0 0 0 0 none false none =
      Except.ok
        { x := fun _ => 0
          itn := 0
          normr := listNorm2 [0, 0, 0]
          normar := 0
          normA := Real.sqrt (0 * 0)
          condA := 1
          normx := 0 } := by
  have hz : listNorm2 ([0, 0, 0] : List ℝ) = 0 := by
    norm_num [listNorm2]
  exact ⟨hz, lsmr_no_shape_validation opId1 [0, 0, 0] 0 0 0 0 none false hz⟩

end Torchmin
